import Mathlib

/-!
Package server: pkg/agent/server/server.go

A shallow embedding of the agent supervisor of `server.go`: the
`AgentServer` struct, the package variable `theAgentServer`, `init`,
`Server`, `GetFlowMan`, `Start` and `Stop`.

Go pointers are addresses (`Ref`) into per-type stores kept in `World`.
The fields of `AgentServer` that the source dereferences without a nil
test (`once`, `wg`, `flowMansLock`, `flowMans`, `ctxCancel`, the watchers)
are always-valid addresses; `rpcServer` and `hostConfig`, which the source
tests or leaves unset, are optional.  Every operation appends the effects
it performs, in program order, to `World.trace`.
-/

namespace Sdnagent

/-- An address in one of the stores of `World`. -/
abbrev Ref := Nat

/-- Go `error` values; `wrap e msg` is `errors.Wrap(e, msg)` for a non-nil `e`. -/
inductive GoError where
  | mk (msg : String)
  | wrap (err : GoError) (msg : String)
  deriving DecidableEq, Repr

/-- A `context.Context`: the cancellation scope it belongs to and the value
stored under the key "wg" by `context.WithValue`. -/
structure Context where
  scope : Ref
  wgValue : Option Ref
  deriving DecidableEq, Repr

/-- The struct `AgentServer`, field by field. -/
structure AgentServer where
  ctx : Context
  ctxCancel : Ref
  once : Ref
  wg : Ref
  flowMansLock : Ref
  flowMans : Ref
  hostConfig : Option Ref
  rpcServer : Option Ref
  serversWatcher : Ref
  ifaceJanitor : Ref
  deriving DecidableEq, Repr

/-- The goroutines started by a `go` statement of this file. -/
inductive Task where
  | hostConfigWatch (hc : Ref) (ctx : Context) (agent : Ref)
  | serversWatcher (sw : Ref) (ctx : Context) (agent : Ref)
  | ifaceJanitor (j : Ref) (ctx : Context)
  | flowMan (fm : Ref) (ctx : Context)
  deriving DecidableEq, Repr

/-- The observable effects, one constructor per kind of call. `lock` and
`unlock` are the exclusive operations of `sync.RWMutex`; `rlock` and
`runlock` the shared ones. -/
inductive Event where
  | rlock (l : Ref)
  | runlock (l : Ref)
  | lock (l : Ref)
  | unlock (l : Ref)
  | mapRead (m : Ref) (key : String) (found : Bool)
  | mapWrite (m : Ref) (key : String) (v : Ref)
  | newFlowMan (bridge : String) (fm : Ref)
  | wgAdd (wg : Ref) (n : Int)
  | wgWait (wg : Ref)
  | spawn (t : Task)
  | newHostConfig
  | auth (hc : Ref) (ctx : Context)
  | listen (network : String) (address : String)
  | fatal (address : String) (err : GoError)
  | lisClose (lis : Ref)
  | serve (rpc : Ref) (lis : Ref)
  | gracefulStop (rpc : Ref)
  | ctxCancel (scope : Ref)
  deriving DecidableEq, Repr

/-- The program state: the package variable `theAgentServer` and the stores
the addresses point into. `maps` holds the `map[string]*FlowMan` values as
association lists, `flowManObjs` the allocated `FlowMan` objects (address =
position, content = bridge name), `rwReaders` the number of shared holders of
each `RWMutex` (no code in this file takes the exclusive side). -/
structure World where
  theAgentServer : Ref
  agents : Ref → AgentServer
  wgs : Ref → Int
  onces : Ref → Bool
  rwReaders : Ref → Nat
  maps : Ref → List (String × Ref)
  flowManObjs : List String
  cancelled : Ref → Bool
  trace : List Event

/-- Store update at one address. -/
def upd {α : Type} (f : Ref → α) (k : Ref) (v : α) : Ref → α :=
  fun x => if x = k then v else f x

/-- Go map index expression `m[k]` with the comma-ok result. -/
def mapGet : List (String × Ref) → String → Option Ref
  | [], _ => none
  | (k', v) :: m, k => if k' = k then some v else mapGet m k

/-- Go map assignment `m[k] = v`: replaces the entry of `k` or adds one. -/
def mapAssign (m : List (String × Ref)) (k : String) (v : Ref) : List (String × Ref) :=
  (k, v) :: m.filter (fun p => decide (p.1 ≠ k))

/-- Append one effect to the trace. -/
def emit (e : Event) (w : World) : World :=
  { w with trace := w.trace ++ [e] }

/-- `l.RLock()`; shared holders may overlap. -/
def RLock (l : Ref) (w : World) : World :=
  emit (.rlock l) { w with rwReaders := upd w.rwReaders l (w.rwReaders l + 1) }

/-- `l.RUnlock()`. -/
def RUnlock (l : Ref) (w : World) : World :=
  emit (.runlock l) { w with rwReaders := upd w.rwReaders l (w.rwReaders l - 1) }

/-- `flowman, ok := m[bridge]`. -/
def mapLookup (m : Ref) (bridge : String) (w : World) : Option Ref × World :=
  (mapGet (w.maps m) bridge, emit (.mapRead m bridge (mapGet (w.maps m) bridge).isSome) w)

/-- Modelled from the spec: `NewFlowMan` is declared outside this file; the
spec describes a BridgeWorker as created lazily and identified by its bridge
name. The call allocates a new `FlowMan` object for `bridge` and returns its
address. -/
def NewFlowMan (bridge : String) (w : World) : Ref × World :=
  (w.flowManObjs.length,
    emit (.newFlowMan bridge w.flowManObjs.length)
      { w with flowManObjs := w.flowManObjs ++ [bridge] })

/-- `m[bridge] = flowman` on the map at address `m`. -/
def mapStore (m : Ref) (bridge : String) (flowman : Ref) (w : World) : World :=
  emit (.mapWrite m bridge flowman)
    { w with maps := upd w.maps m (mapAssign (w.maps m) bridge flowman) }

/-- `wg.Add(n)`. -/
def wgAdd (wg : Ref) (n : Int) (w : World) : World :=
  emit (.wgAdd wg n) { w with wgs := upd w.wgs wg (w.wgs wg + n) }

/-- A `go` statement. -/
def spawn (t : Task) (w : World) : World :=
  emit (.spawn t) w

/-- The method `GetFlowMan` with receiver `s`: the lock and the map are those
of `theAgentServer`, the WaitGroup and the context those of `s`; the deferred
`RUnlock` runs at each return. -/
def GetFlowMan (s : Ref) (bridge : String) (w : World) : Ref × World :=
  let the := w.agents w.theAgentServer
  let w1 := RLock the.flowMansLock w
  match mapLookup the.flowMans bridge w1 with
  | (some flowman, w2) => (flowman, RUnlock the.flowMansLock w2)
  | (none, w2) =>
    let (flowman, w3) := NewFlowMan bridge w2
    let w4 := mapStore the.flowMans bridge flowman w3
    let w5 := wgAdd (w4.agents s).wg 1 w4
    let w6 := spawn (.flowMan flowman (w5.agents s).ctx) w5
    (flowman, RUnlock the.flowMansLock w6)

/-- The registry of the process-wide agent. -/
def registry (w : World) : List (String × Ref) :=
  w.maps (w.agents w.theAgentServer).flowMans

/-- `Server()` returns the package variable. -/
def Server (w : World) : Ref :=
  w.theAgentServer

/-- The agent value built by `init`: fresh WaitGroup, cancellable context
carrying the WaitGroup under "wg", fresh Once, empty map, fresh lock, the
watcher, the janitor and the gRPC server. -/
def initAgent : AgentServer :=
  { ctx := { scope := 0, wgValue := some 0 }
    ctxCancel := 0
    once := 0
    wg := 0
    flowMansLock := 0
    flowMans := 0
    hostConfig := none
    rpcServer := some 0
    serversWatcher := 0
    ifaceJanitor := 0 }

/-- An agent built separately from the process-wide one: all its objects
live at address 1. -/
def otherAgent : AgentServer :=
  { ctx := { scope := 1, wgValue := some 1 }
    ctxCancel := 1
    once := 1
    wg := 1
    flowMansLock := 1
    flowMans := 1
    hostConfig := none
    rpcServer := some 1
    serversWatcher := 1
    ifaceJanitor := 1 }

/-- The state after `init()` has run without panicking: the process-wide
agent is at address 0, counters are zero, no Once has fired, the maps are
empty, nothing is allocated or cancelled. The program builds no other
agent; the remaining addresses of the agent store hold `otherAgent`. -/
def init : World :=
  { theAgentServer := 0
    agents := upd (fun _ => otherAgent) 0 initAgent
    wgs := fun _ => 0
    onces := fun _ => false
    rwReaders := fun _ => 0
    maps := fun _ => []
    flowManObjs := []
    cancelled := fun _ => false
    trace := [] }

/-- The method `Stop`: `once.Do` runs its body only while the Once has not
fired and marks it fired when the body returns; the body stops the gRPC
server gracefully when there is one, then calls `ctxCancel`. -/
def Stop (s : Ref) (w : World) : World :=
  let a := w.agents s
  if w.onces a.once then w
  else
    let w1 := match a.rpcServer with
      | some rpc => emit (.gracefulStop rpc) w
      | none => w
    let w2 := emit (.ctxCancel a.ctxCancel) { w1 with cancelled := upd w1.cancelled a.ctxCancel true }
    { w2 with onces := upd w2.onces a.once true }

/-- `Stop` called `k` times in succession. -/
def stopTimes (s : Ref) : Nat → World → World
  | 0, w => w
  | k + 1, w => stopTimes s k (Stop s w)

/-- What the calls that leave this package answer during one run of `Start`,
and the constant `common.UnixSocketFile`, which is declared in another
package. `newHostConfig` is `utils.NewHostConfig()`, `auth` is `hc.Auth(ctx)`
(`none` for a nil error), `listen` is `net.Listen`, `serve` is the value
`rpcServer.Serve(lis)` returns. -/
structure Env where
  unixSocketFile : String
  newHostConfig : Except GoError Ref
  auth : Ref → Context → Option GoError
  listen : String → String → Except GoError Ref
  serve : Ref → Ref → Option GoError

/-- How a call of `Start` ends: it returns an `error` (`none` is nil), the
process exits inside `log.Fatalf`, or a nil `rpcServer` is dereferenced. -/
inductive Outcome where
  | returned (err : Option GoError)
  | exited
  | panicked
  deriving DecidableEq, Repr

/-- The method `Start`. The two deferred calls run in reverse order of
their `defer` statements, `s.wg.Wait()` before `lis.Close()`, once `Serve`
has returned; `log.Fatalf` ends the process on the spot. -/
def Start (env : Env) (s : Ref) (w : World) : Outcome × World :=
  let w1 := emit .newHostConfig w
  match env.newHostConfig with
  | .error err => (.returned (some (.wrap err "host config")), w1)
  | .ok hc =>
    let w2 := emit (.auth hc (w1.agents s).ctx) w1
    match env.auth hc (w1.agents s).ctx with
    | some err => (.returned (some (.wrap err "keystone auth")), w2)
    | none =>
      let w3 := { w2 with agents := upd w2.agents s { w2.agents s with hostConfig := some hc } }
      let w4 := spawn (.hostConfigWatch hc (w3.agents s).ctx s) w3
      let w5 := emit (.listen "unix" env.unixSocketFile) w4
      match env.listen "unix" env.unixSocketFile with
      | .error err => (.exited, emit (.fatal env.unixSocketFile err) w5)
      | .ok lis =>
        let wg := (w5.agents s).wg
        let w6 := wgAdd (w5.agents s).wg 2 w5
        let w7 := spawn (.serversWatcher (w6.agents s).serversWatcher (w6.agents s).ctx s) w6
        let w8 := spawn (.ifaceJanitor (w7.agents s).ifaceJanitor (w7.agents s).ctx) w7
        match (w8.agents s).rpcServer with
        | none => (.panicked, emit (.lisClose lis) (emit (.wgWait wg) w8))
        | some rpc =>
          let w9 := emit (.serve rpc lis) w8
          (.returned (env.serve rpc lis), emit (.lisClose lis) (emit (.wgWait wg) w9))

/-- `GetFlowMan` called one after another on receiver `s` for the bridges of
a list; returns the workers in call order. -/
def getFlowMans (s : Ref) : List String → World → List Ref × World
  | [], w => ([], w)
  | b :: bs, w =>
    let r := GetFlowMan s b w
    let rs := getFlowMans s bs r.2
    (r.1 :: rs.1, rs.2)

/-- Whether an effect starts a goroutine. -/
def Event.isSpawn : Event → Bool
  | .spawn _ => true
  | _ => false

/-- Whether an effect starts a flow worker (`go flowman.Start`). -/
def Event.isWorkerSpawn : Event → Bool
  | .spawn (.flowMan _ _) => true
  | _ => false

/-- Whether an effect starts one of the goroutines that `Start` or
`GetFlowMan` announce with `wg.Add`: every goroutine but the host
configuration watcher. -/
def Event.isTrackedSpawn : Event → Bool
  | .spawn (.hostConfigWatch _ _ _) => false
  | .spawn _ => true
  | _ => false

/-- The amount an effect adds to a WaitGroup. -/
def Event.added : Event → Int
  | .wgAdd _ n => n
  | _ => 0

/-- Number of goroutines started in a trace. -/
def spawnedCount (tr : List Event) : Nat :=
  tr.countP Event.isSpawn

/-- Number of flow workers started in a trace. -/
def workersLaunched (tr : List Event) : Nat :=
  tr.countP Event.isWorkerSpawn

/-- Number of announced goroutines started in a trace. -/
def trackedSpawnedCount (tr : List Event) : Nat :=
  tr.countP Event.isTrackedSpawn

/-- Sum of the WaitGroup increments in a trace. -/
def addedTotal (tr : List Event) : Int :=
  (tr.map Event.added).sum

/-- The effects a step appended: the trace after, without the trace before. -/
def effectsSince (w w' : World) : List Event :=
  w'.trace.drop w.trace.length

/-- At every initial segment of the trace the goroutines started so far are
covered by the increments made so far. -/
def incrementsCoverSpawns (tr : List Event) : Prop :=
  ∀ n : Nat, (spawnedCount (tr.take n) : Int) ≤ addedTotal (tr.take n)

/-- The same for the announced goroutines only. -/
def incrementsCoverTrackedSpawns (tr : List Event) : Prop :=
  ∀ n : Nat, (trackedSpawnedCount (tr.take n) : Int) ≤ addedTotal (tr.take n)

/-- Scans a trace while tracking whether the exclusive side of lock `l` is
held, and tells whether every failed existence check on map `m` and every
write to `m` happens while it is held. -/
def insertsUnderExclusiveLock (l m : Ref) : Bool → List Event → Bool
  | _, [] => true
  | held, .lock l' :: es => insertsUnderExclusiveLock l m (held || l' == l) es
  | held, .unlock l' :: es => insertsUnderExclusiveLock l m (held && l' != l) es
  | held, .mapRead m' _ false :: es => (m' != m || held) && insertsUnderExclusiveLock l m held es
  | held, .mapWrite m' _ _ :: es => (m' != m || held) && insertsUnderExclusiveLock l m held es
  | held, _ :: es => insertsUnderExclusiveLock l m held es

/-- Program points of one `GetFlowMan` call, one per statement; from the
creation on they carry the local variable `flowman`. -/
inductive Pc where
  | rlock
  | lookup
  | create
  | insert (flowman : Ref)
  | add (flowman : Ref)
  | launch (flowman : Ref)
  | runlock (flowman : Ref)
  | done (flowman : Ref)
  deriving DecidableEq, Repr

/-- A caller inside `GetFlowMan`: receiver, argument and program point. -/
structure Thread where
  s : Ref
  bridge : String
  pc : Pc
  deriving DecidableEq, Repr

/-- One statement of `GetFlowMan` executed by a caller. `RLock` is always
enabled: shared holders do not exclude each other and nothing takes the
exclusive side. -/
def Thread.step (t : Thread) (w : World) : Thread × World :=
  let the := w.agents w.theAgentServer
  match t.pc with
  | .rlock => ({ t with pc := .lookup }, RLock the.flowMansLock w)
  | .lookup =>
    match mapLookup the.flowMans t.bridge w with
    | (some flowman, w1) => ({ t with pc := .runlock flowman }, w1)
    | (none, w1) => ({ t with pc := .create }, w1)
  | .create =>
    let (flowman, w1) := NewFlowMan t.bridge w
    ({ t with pc := .insert flowman }, w1)
  | .insert flowman => ({ t with pc := .add flowman }, mapStore the.flowMans t.bridge flowman w)
  | .add flowman => ({ t with pc := .launch flowman }, wgAdd (w.agents t.s).wg 1 w)
  | .launch flowman =>
    ({ t with pc := .runlock flowman }, spawn (.flowMan flowman (w.agents t.s).ctx) w)
  | .runlock flowman => ({ t with pc := .done flowman }, RUnlock the.flowMansLock w)
  | .done _ => (t, w)

/-- Runs the callers under a schedule: each entry names the caller that
executes its next statement. -/
def runSchedule : List Nat → List Thread × World → List Thread × World
  | [], c => c
  | i :: is, (ts, w) =>
    match ts[i]? with
    | none => runSchedule is (ts, w)
    | some t => runSchedule is (ts.set i (t.step w).1, (t.step w).2)

/-- The value a caller returned, once it has returned. -/
def Thread.result (t : Thread) : Option Ref :=
  match t.pc with
  | .done flowman => some flowman
  | _ => none

/-- Two callers of `GetFlowMan` on the process-wide agent for the same
bridge, both about to enter. -/
def racingCallers : List Thread :=
  [{ s := 0, bridge := "br0", pc := .rlock }, { s := 0, bridge := "br0", pc := .rlock }]

/-- Both callers take the shared lock and miss in the map before either
inserts; then each runs to its return. -/
def racingSchedule : List Nat :=
  [0, 0, 1, 1, 0, 0, 0, 0, 0, 1, 1, 1, 1, 1]

/-- Answers of the outside world under which `Start` goes all the way to
`Serve`, which returns nil. -/
def envServing : Env :=
  { unixSocketFile := "/var/run/sdnagent.sock"
    newHostConfig := .ok 0
    auth := fun _ _ => none
    listen := fun _ _ => .ok 0
    serve := fun _ _ => none }

/-- Answers under which authentication fails. -/
def envAuthFails : Env :=
  { envServing with auth := fun _ _ => some (.mk "401") }

/-- Answers under which resolving the host configuration fails. -/
def envNoHostConfig : Env :=
  { envServing with newHostConfig := .error (.mk "no host config") }

/-- Answers under which the listener cannot be bound. -/
def envListenFails : Env :=
  { envServing with listen := fun _ _ => .error (.mk "address already in use") }

/-- Consistency of the registry with the allocator: each bridge has one
entry, every registered worker has been allocated, and two bridges never
share a worker. -/
structure RegistryOk (w : World) : Prop where
  nodup : ((registry w).map Prod.fst).Nodup
  allocated : ∀ b fm, mapGet (registry w) b = some fm → fm < w.flowManObjs.length
  injective : ∀ b b' fm,
    mapGet (registry w) b = some fm → mapGet (registry w) b' = some fm → b = b'

/-! ## Stores and maps -/

@[simp] theorem upd_same {α : Type} (f : Ref → α) (k : Ref) (v : α) : upd f k v k = v := by
  simp [upd]

theorem mapGet_mapAssign_self (m : List (String × Ref)) (k : String) (v : Ref) :
    mapGet (mapAssign m k v) k = some v := by
  simp [mapAssign, mapGet]

theorem mapGet_filter_ne (m : List (String × Ref)) (k k' : String) (h : k' ≠ k) :
    mapGet (m.filter (fun p => decide (p.1 ≠ k))) k' = mapGet m k' := by
  induction m with
  | nil => rfl
  | cons p m ih =>
    obtain ⟨a, v⟩ := p
    by_cases ha : a = k
    · subst ha
      have hk : ¬ a = k' := fun e => h e.symm
      simp only [ne_eq, decide_not] at ih
      simp [List.filter, mapGet, hk, ih]
    · simp only [ne_eq, decide_not] at ih
      simp [List.filter, mapGet, ha, ih]

theorem mapGet_mapAssign_other (m : List (String × Ref)) (k k' : String) (v : Ref)
    (h : k' ≠ k) : mapGet (mapAssign m k v) k' = mapGet m k' := by
  have hk : ¬ k = k' := fun e => h e.symm
  have hf := mapGet_filter_ne m k k' h
  simp only [ne_eq, decide_not] at hf
  simp [mapAssign, mapGet, hk, hf]

/-! ## GetFlowMan, one call -/

theorem GetFlowMan_hit (s : Ref) (b : String) (w : World) (fm : Ref)
    (h : mapGet (registry w) b = some fm) :
    (GetFlowMan s b w).1 = fm ∧
    (GetFlowMan s b w).2.theAgentServer = w.theAgentServer ∧
    (GetFlowMan s b w).2.agents = w.agents ∧
    (GetFlowMan s b w).2.maps = w.maps ∧
    (GetFlowMan s b w).2.wgs = w.wgs ∧
    (GetFlowMan s b w).2.flowManObjs = w.flowManObjs ∧
    (GetFlowMan s b w).2.trace = w.trace ++
      [.rlock (w.agents w.theAgentServer).flowMansLock,
       .mapRead (w.agents w.theAgentServer).flowMans b true,
       .runlock (w.agents w.theAgentServer).flowMansLock] := by
  unfold registry at h
  simp [GetFlowMan, mapLookup, RLock, RUnlock, emit, h]

theorem GetFlowMan_miss (s : Ref) (b : String) (w : World)
    (h : mapGet (registry w) b = none) :
    (GetFlowMan s b w).1 = w.flowManObjs.length ∧
    (GetFlowMan s b w).2.theAgentServer = w.theAgentServer ∧
    (GetFlowMan s b w).2.agents = w.agents ∧
    (GetFlowMan s b w).2.maps = upd w.maps (w.agents w.theAgentServer).flowMans
      (mapAssign (registry w) b w.flowManObjs.length) ∧
    (GetFlowMan s b w).2.wgs = upd w.wgs (w.agents s).wg (w.wgs (w.agents s).wg + 1) ∧
    (GetFlowMan s b w).2.flowManObjs = w.flowManObjs ++ [b] ∧
    (GetFlowMan s b w).2.trace = w.trace ++
      [.rlock (w.agents w.theAgentServer).flowMansLock,
       .mapRead (w.agents w.theAgentServer).flowMans b false,
       .newFlowMan b w.flowManObjs.length,
       .mapWrite (w.agents w.theAgentServer).flowMans b w.flowManObjs.length,
       .wgAdd (w.agents s).wg 1,
       .spawn (.flowMan w.flowManObjs.length (w.agents s).ctx),
       .runlock (w.agents w.theAgentServer).flowMansLock] := by
  unfold registry at h
  simp [GetFlowMan, mapLookup, RLock, RUnlock, NewFlowMan, mapStore, wgAdd, spawn, emit, h,
    registry]

/-- C1: on the process-wide agent, for a bridge that the registry does not
hold, `GetFlowMan` returns a worker allocated by this call for that bridge;
afterwards the registry maps the bridge to the returned worker and every
other entry is as before, the agent's WaitGroup is one higher, and the
goroutines started by the call are exactly one flow worker, the returned
one, on the agent's context. -/
theorem GetFlowMan_creates_unregistered (w : World) (b : String)
    (h : mapGet (registry w) b = none) :
    w.flowManObjs[(GetFlowMan (Server w) b w).1]? = none ∧
    (GetFlowMan (Server w) b w).2.flowManObjs[(GetFlowMan (Server w) b w).1]? = some b ∧
    mapGet (registry (GetFlowMan (Server w) b w).2) b = some (GetFlowMan (Server w) b w).1 ∧
    (∀ b', b' ≠ b →
      mapGet (registry (GetFlowMan (Server w) b w).2) b' = mapGet (registry w) b') ∧
    (GetFlowMan (Server w) b w).2.wgs (w.agents (Server w)).wg
      = w.wgs (w.agents (Server w)).wg + 1 ∧
    addedTotal (effectsSince w (GetFlowMan (Server w) b w).2) = 1 ∧
    (effectsSince w (GetFlowMan (Server w) b w).2).filter Event.isSpawn
      = [.spawn (.flowMan (GetFlowMan (Server w) b w).1 (w.agents (Server w)).ctx)] ∧
    workersLaunched (effectsSince w (GetFlowMan (Server w) b w).2) = 1 := by
  obtain ⟨h1, h2, h3, h4, h5, h6, h7⟩ := GetFlowMan_miss (Server w) b w h
  refine ⟨?_, ?_, ?_, ?_, ?_, ?_, ?_, ?_⟩
  · rw [h1]; simp
  · rw [h1, h6]; simp
  · simp [registry, h1, h2, h3, h4, mapGet_mapAssign_self]
  · intro b' hb
    simp [registry, h2, h3, h4, mapGet_mapAssign_other _ _ _ _ hb]
  · rw [h5]; simp
  · simp [effectsSince, h7, addedTotal, Event.added]
  · simp [effectsSince, h7, h1, Event.isSpawn, List.filter]
  · simp [effectsSince, h7, workersLaunched, Event.isWorkerSpawn, List.countP_cons]

/-- Witness for C1: the first call for "br0" after `init`. -/
theorem GetFlowMan_creates_unregistered_witness :
    mapGet (registry init) "br0" = none ∧
    (GetFlowMan (Server init) "br0" init).2.wgs (init.agents (Server init)).wg
      = init.wgs (init.agents (Server init)).wg + 1 :=
  ⟨by decide, (GetFlowMan_creates_unregistered init "br0" (by decide)).2.2.2.2.1⟩

/-! ## GetFlowMan, sequences of calls -/

theorem mapGet_eq_none_iff (m : List (String × Ref)) (b : String) :
    mapGet m b = none ↔ b ∉ m.map Prod.fst := by
  induction m with
  | nil => simp [mapGet]
  | cons p m ih =>
    obtain ⟨a, v⟩ := p
    by_cases ha : a = b
    · simp [mapGet, ha]
    · have hb : ¬ b = a := fun e => ha e.symm
      simp only [mapGet, ha, if_false, ih]
      simp [hb]

theorem filter_ne_of_mapGet_none (m : List (String × Ref)) (b : String)
    (h : mapGet m b = none) : m.filter (fun p => decide (p.1 ≠ b)) = m := by
  rw [mapGet_eq_none_iff] at h
  apply List.filter_eq_self.2
  intro p hp
  have : p.1 ∈ m.map Prod.fst := List.mem_map_of_mem _ hp
  have hne : p.1 ≠ b := fun e => h (e ▸ this)
  simpa using hne

theorem registry_after_miss (s : Ref) (b : String) (w : World)
    (h : mapGet (registry w) b = none) :
    registry (GetFlowMan s b w).2 = (b, w.flowManObjs.length) :: registry w := by
  obtain ⟨_, h2, h3, h4, _⟩ := GetFlowMan_miss s b w h
  have hf := filter_ne_of_mapGet_none (registry w) b h
  unfold registry at *
  rw [h2, h3, h4, upd_same]
  simp only [mapAssign, hf]

theorem registry_after_hit (s : Ref) (b : String) (w : World) (fm : Ref)
    (h : mapGet (registry w) b = some fm) :
    registry (GetFlowMan s b w).2 = registry w := by
  obtain ⟨_, h2, h3, h4, _⟩ := GetFlowMan_hit s b w fm h
  unfold registry
  rw [h2, h3, h4]

theorem GetFlowMan_frame (s : Ref) (b : String) (w : World) :
    (GetFlowMan s b w).2.theAgentServer = w.theAgentServer ∧
    (GetFlowMan s b w).2.agents = w.agents := by
  cases h : mapGet (registry w) b with
  | none => exact ⟨(GetFlowMan_miss s b w h).2.1, (GetFlowMan_miss s b w h).2.2.1⟩
  | some fm => exact ⟨(GetFlowMan_hit s b w fm h).2.1, (GetFlowMan_hit s b w fm h).2.2.1⟩

theorem GetFlowMan_registers (s : Ref) (b : String) (w : World) :
    mapGet (registry (GetFlowMan s b w).2) b = some (GetFlowMan s b w).1 := by
  cases h : mapGet (registry w) b with
  | none =>
    rw [registry_after_miss s b w h, (GetFlowMan_miss s b w h).1]
    simp [mapGet]
  | some fm =>
    rw [registry_after_hit s b w fm h, (GetFlowMan_hit s b w fm h).1, h]

theorem GetFlowMan_keeps (s : Ref) (b : String) (w : World) (b' : String) (fm' : Ref)
    (hb : mapGet (registry w) b' = some fm') :
    mapGet (registry (GetFlowMan s b w).2) b' = some fm' := by
  cases h : mapGet (registry w) b with
  | none =>
    rw [registry_after_miss s b w h]
    have hne : ¬ b = b' := by
      intro e
      rw [e, hb] at h
      cases h
    simp [mapGet, hne, hb]
  | some fm => rw [registry_after_hit s b w fm h, hb]

theorem GetFlowMan_keys (s : Ref) (b : String) (w : World) (x : String) :
    x ∈ (registry (GetFlowMan s b w).2).map Prod.fst ↔
      x = b ∨ x ∈ (registry w).map Prod.fst := by
  cases h : mapGet (registry w) b with
  | none =>
    rw [registry_after_miss s b w h]
    simp
  | some fm =>
    rw [registry_after_hit s b w fm h]
    constructor
    · exact fun hx => Or.inr hx
    · rintro (rfl | hx)
      · by_contra hc
        rw [← mapGet_eq_none_iff, h] at hc
        cases hc
      · exact hx

theorem GetFlowMan_ok (s : Ref) (b : String) (w : World) (hw : RegistryOk w) :
    RegistryOk (GetFlowMan s b w).2 := by
  cases h : mapGet (registry w) b with
  | some fm =>
    obtain ⟨_, _, _, _, _, h6, _⟩ := GetFlowMan_hit s b w fm h
    have hr := registry_after_hit s b w fm h
    exact ⟨by rw [hr]; exact hw.nodup, by rw [hr, h6]; exact hw.allocated,
      by rw [hr]; exact hw.injective⟩
  | none =>
    obtain ⟨_, _, _, _, _, h6, _⟩ := GetFlowMan_miss s b w h
    have hr := registry_after_miss s b w h
    refine ⟨?_, ?_, ?_⟩
    · rw [hr]
      simp only [List.map_cons, List.nodup_cons]
      exact ⟨(mapGet_eq_none_iff _ _).1 h, hw.nodup⟩
    · intro k fm hk
      rw [hr] at hk
      rw [h6]
      simp only [mapGet] at hk
      split at hk
      · cases hk; simp
      · have := hw.allocated k fm hk
        simp only [List.length_append, List.length_singleton]
        exact Nat.lt_succ_of_lt this
    · intro k k' fm hk hk'
      rw [hr] at hk hk'
      simp only [mapGet] at hk hk'
      split at hk <;> split at hk'
      · rename_i e1 e2; rw [← e1, ← e2]
      · cases hk
        exact absurd (hw.allocated k' _ hk') (Nat.lt_irrefl _)
      · cases hk'
        exact absurd (hw.allocated k _ hk) (Nat.lt_irrefl _)
      · exact hw.injective k k' fm hk hk'

theorem GetFlowMan_counts (s : Ref) (b : String) (w : World) :
    ∃ delta, (GetFlowMan s b w).2.trace = w.trace ++ delta ∧
      addedTotal delta = (workersLaunched delta : Int) ∧
      (registry (GetFlowMan s b w).2).length = (registry w).length + workersLaunched delta ∧
      (GetFlowMan s b w).2.wgs (w.agents s).wg
        = w.wgs (w.agents s).wg + (workersLaunched delta : Int) ∧
      (GetFlowMan s b w).2.flowManObjs.length
        = w.flowManObjs.length + workersLaunched delta := by
  cases h : mapGet (registry w) b with
  | some fm =>
    obtain ⟨_, _, _, _, h5, h6, h7⟩ := GetFlowMan_hit s b w fm h
    refine ⟨_, h7, ?_, ?_, ?_, ?_⟩
    · simp [addedTotal, workersLaunched, Event.added, Event.isWorkerSpawn, List.countP_cons]
    · rw [registry_after_hit s b w fm h]
      simp [workersLaunched, Event.isWorkerSpawn, List.countP_cons]
    · rw [h5]
      simp [workersLaunched, Event.isWorkerSpawn, List.countP_cons]
    · rw [h6]
      simp [workersLaunched, Event.isWorkerSpawn, List.countP_cons]
  | none =>
    obtain ⟨_, _, _, _, h5, h6, h7⟩ := GetFlowMan_miss s b w h
    refine ⟨_, h7, ?_, ?_, ?_, ?_⟩
    · simp [addedTotal, workersLaunched, Event.added, Event.isWorkerSpawn, List.countP_cons]
    · rw [registry_after_miss s b w h]
      simp [workersLaunched, Event.isWorkerSpawn, List.countP_cons]
    · rw [h5]
      simp [workersLaunched, Event.isWorkerSpawn, List.countP_cons]
    · rw [h6]
      simp [workersLaunched, Event.isWorkerSpawn, List.countP_cons]

theorem getFlowMans_frame (s : Ref) (bs : List String) (w : World) :
    (getFlowMans s bs w).2.theAgentServer = w.theAgentServer ∧
    (getFlowMans s bs w).2.agents = w.agents := by
  induction bs generalizing w with
  | nil => exact ⟨rfl, rfl⟩
  | cons b bs ih =>
    obtain ⟨h1, h2⟩ := ih (GetFlowMan s b w).2
    obtain ⟨g1, g2⟩ := GetFlowMan_frame s b w
    exact ⟨h1.trans g1, h2.trans g2⟩

theorem getFlowMans_length (s : Ref) (bs : List String) (w : World) :
    (getFlowMans s bs w).1.length = bs.length := by
  induction bs generalizing w with
  | nil => rfl
  | cons b bs ih => simp [getFlowMans, ih]

theorem getFlowMans_keeps (s : Ref) (bs : List String) (w : World) (b' : String) (fm' : Ref)
    (hb : mapGet (registry w) b' = some fm') :
    mapGet (registry (getFlowMans s bs w).2) b' = some fm' := by
  induction bs generalizing w with
  | nil => exact hb
  | cons b bs ih => exact ih _ (GetFlowMan_keeps s b w b' fm' hb)

theorem getFlowMans_registers (s : Ref) (bs : List String) (w : World) :
    ∀ p ∈ bs.zip (getFlowMans s bs w).1,
      mapGet (registry (getFlowMans s bs w).2) p.1 = some p.2 := by
  induction bs generalizing w with
  | nil => intro p hp; simp at hp
  | cons b bs ih =>
    intro p hp
    simp only [getFlowMans, List.zip_cons_cons, List.mem_cons] at hp ⊢
    rcases hp with rfl | hp
    · exact getFlowMans_keeps s bs _ b _ (GetFlowMan_registers s b w)
    · exact ih _ p hp

theorem getFlowMans_ok (s : Ref) (bs : List String) (w : World) (hw : RegistryOk w) :
    RegistryOk (getFlowMans s bs w).2 := by
  induction bs generalizing w with
  | nil => exact hw
  | cons b bs ih => exact ih _ (GetFlowMan_ok s b w hw)

theorem getFlowMans_keys (s : Ref) (bs : List String) (w : World) (x : String) :
    x ∈ (registry (getFlowMans s bs w).2).map Prod.fst ↔
      x ∈ bs ∨ x ∈ (registry w).map Prod.fst := by
  induction bs generalizing w with
  | nil => simp [getFlowMans]
  | cons b bs ih =>
    simp only [getFlowMans, ih, GetFlowMan_keys, List.mem_cons]
    tauto

theorem addedTotal_append (a b : List Event) :
    addedTotal (a ++ b) = addedTotal a + addedTotal b := by
  simp [addedTotal]

theorem workersLaunched_append (a b : List Event) :
    workersLaunched (a ++ b) = workersLaunched a + workersLaunched b := by
  simp [workersLaunched]

theorem getFlowMans_counts (s : Ref) (bs : List String) (w : World) :
    ∃ delta, (getFlowMans s bs w).2.trace = w.trace ++ delta ∧
      addedTotal delta = (workersLaunched delta : Int) ∧
      (registry (getFlowMans s bs w).2).length = (registry w).length + workersLaunched delta ∧
      (getFlowMans s bs w).2.wgs (w.agents s).wg
        = w.wgs (w.agents s).wg + (workersLaunched delta : Int) ∧
      (getFlowMans s bs w).2.flowManObjs.length
        = w.flowManObjs.length + workersLaunched delta := by
  induction bs generalizing w with
  | nil => exact ⟨[], by simp [getFlowMans, addedTotal, workersLaunched]⟩
  | cons b bs ih =>
    obtain ⟨d1, t1, a1, r1, g1, f1⟩ := GetFlowMan_counts s b w
    obtain ⟨d2, t2, a2, r2, g2, f2⟩ := ih (GetFlowMan s b w).2
    rw [(GetFlowMan_frame s b w).2] at g2
    refine ⟨d1 ++ d2, ?_, ?_, ?_, ?_, ?_⟩
    · simp only [getFlowMans, t2, t1, List.append_assoc]
    · rw [addedTotal_append, workersLaunched_append, a1, a2]; push_cast; rfl
    · simp only [getFlowMans, r2, r1, workersLaunched_append]; omega
    · simp only [getFlowMans, g2, g1, workersLaunched_append]; push_cast; ring
    · simp only [getFlowMans, f2, f1, workersLaunched_append]; omega

theorem registryOk_of_empty (w : World) (h : registry w = []) : RegistryOk w := by
  refine ⟨by simp [h], ?_, ?_⟩
  · intro b fm hb; simp [h, mapGet] at hb
  · intro b b' fm hb; simp [h, mapGet] at hb

/-- C2: for every list of bridges, `GetFlowMan` called for them one after
another on the process-wide agent, starting with an empty registry, returns
one worker per call such that two calls return the same worker exactly when
they name the same bridge; the number of flow workers started, the total
added to the WaitGroup, the growth of the agent's WaitGroup, the number of
workers allocated and the final size of the registry all equal the number
of distinct bridges in the list. After `init` the calls for A, B, A, C, B
return workers 0, 1, 0, 2, 1 and start three workers. -/
theorem getFlowMans_one_worker_per_bridge (w : World) (bs : List String)
    (h : registry w = []) :
    (getFlowMans (Server w) bs w).1.length = bs.length ∧
    (∀ p ∈ bs.zip (getFlowMans (Server w) bs w).1,
      ∀ q ∈ bs.zip (getFlowMans (Server w) bs w).1, (p.1 = q.1 ↔ p.2 = q.2)) ∧
    workersLaunched (effectsSince w (getFlowMans (Server w) bs w).2) = bs.dedup.length ∧
    addedTotal (effectsSince w (getFlowMans (Server w) bs w).2) = (bs.dedup.length : Int) ∧
    (getFlowMans (Server w) bs w).2.wgs (w.agents (Server w)).wg
      = w.wgs (w.agents (Server w)).wg + (bs.dedup.length : Int) ∧
    (getFlowMans (Server w) bs w).2.flowManObjs.length
      = w.flowManObjs.length + bs.dedup.length ∧
    (registry (getFlowMans (Server w) bs w).2).length = bs.dedup.length ∧
    (getFlowMans (Server init) ["A", "B", "A", "C", "B"] init).1 = [0, 1, 0, 2, 1] ∧
    workersLaunched (getFlowMans (Server init) ["A", "B", "A", "C", "B"] init).2.trace = 3 := by
  have hok := getFlowMans_ok (Server w) bs w (registryOk_of_empty w h)
  have hreg := getFlowMans_registers (Server w) bs w
  obtain ⟨d, t, a, r, g, f⟩ := getFlowMans_counts (Server w) bs w
  have hlen : (registry (getFlowMans (Server w) bs w).2).length = bs.dedup.length := by
    have hp : List.Perm ((registry (getFlowMans (Server w) bs w).2).map Prod.fst) bs.dedup := by
      apply (List.perm_ext_iff_of_nodup hok.nodup (List.nodup_dedup bs)).2
      intro x
      rw [getFlowMans_keys, h]
      simp
    have := hp.length_eq
    simpa using this
  have hd : workersLaunched d = bs.dedup.length := by
    rw [hlen, h] at r
    simpa using r.symm
  have he : effectsSince w (getFlowMans (Server w) bs w).2 = d := by
    simp [effectsSince, t]
  refine ⟨getFlowMans_length _ _ _, ?_, ?_, ?_, ?_, ?_, hlen, by decide, by decide⟩
  · intro p hp q hq
    have h1 := hreg p hp
    have h2 := hreg q hq
    constructor
    · intro e
      rw [e, h2] at h1
      exact (Option.some.inj h1).symm
    · intro e
      rw [e] at h1
      exact hok.injective _ _ _ h1 h2
  · rw [he, hd]
  · rw [he, a, hd]
  · rw [g, hd]
  · rw [f, hd]

/-- Witness for C2: the calls for A, B, A, C, B after `init`. -/
theorem getFlowMans_one_worker_per_bridge_witness :
    registry init = [] ∧
    (registry (getFlowMans (Server init) ["A", "B", "A", "C", "B"] init).2).length
      = ["A", "B", "A", "C", "B"].dedup.length :=
  ⟨by decide, (getFlowMans_one_worker_per_bridge init ["A", "B", "A", "C", "B"]
    (by decide)).2.2.2.2.2.2.1⟩

/-! ## Stop -/

theorem Stop_fired (s : Ref) (w : World) (h : w.onces (w.agents s).once = true) :
    Stop s w = w := by
  simp [Stop, h]

theorem Stop_fires (s : Ref) (w : World) :
    (Stop s w).onces ((Stop s w).agents s).once = true := by
  by_cases h : w.onces (w.agents s).once = true
  · rw [Stop_fired s w h]; exact h
  · cases hr : (w.agents s).rpcServer <;> simp [Stop, h, hr, emit]

theorem stopTimes_fired (s : Ref) (k : Nat) (w : World)
    (h : w.onces (w.agents s).once = true) : stopTimes s k w = w := by
  induction k with
  | zero => rfl
  | succ k ih => rw [stopTimes, Stop_fired s w h, ih]

theorem stopTimes_succ (s : Ref) (k : Nat) (w : World) :
    stopTimes s (k + 1) w = Stop s w := by
  rw [stopTimes, stopTimes_fired s k _ (Stop_fires s w)]

/-- C4: for an agent with an RPC server whose Once has not fired, `K ≥ 1`
calls of `Stop` in succession leave exactly two effects, the graceful stop
of the RPC server followed by the call of `ctxCancel`, each occurring once;
the state after `K` calls is the state after one call, every further call
leaves the state as it is, and the cancellation scope is cancelled. -/
theorem stopTimes_eq_single_Stop (K : Nat) (s : Ref) (w : World) (rpc : Ref)
    (hK : 1 ≤ K) (hrpc : (w.agents s).rpcServer = some rpc)
    (honce : w.onces (w.agents s).once = false) :
    effectsSince w (stopTimes s K w)
      = [.gracefulStop rpc, .ctxCancel (w.agents s).ctxCancel] ∧
    (effectsSince w (stopTimes s K w)).count (.gracefulStop rpc) = 1 ∧
    (effectsSince w (stopTimes s K w)).count (.ctxCancel (w.agents s).ctxCancel) = 1 ∧
    stopTimes s K w = Stop s w ∧
    Stop s (stopTimes s K w) = stopTimes s K w ∧
    (stopTimes s K w).cancelled (w.agents s).ctxCancel = true := by
  obtain ⟨k, rfl⟩ : ∃ k, K = k + 1 := ⟨K - 1, by omega⟩
  rw [stopTimes_succ]
  have he : effectsSince w (Stop s w)
      = [.gracefulStop rpc, .ctxCancel (w.agents s).ctxCancel] := by
    simp [effectsSince, Stop, honce, hrpc, emit]
  refine ⟨he, ?_, ?_, rfl, Stop_fired s _ (Stop_fires s w), ?_⟩
  · rw [he]; simp [List.count_cons]
  · rw [he]; simp [List.count_cons]
  · simp [Stop, honce, hrpc, emit]

/-- Witness for C4: three calls of `Stop` on the process-wide agent after
`init`. -/
theorem stopTimes_eq_single_Stop_witness :
    1 ≤ 3 ∧ (init.agents 0).rpcServer = some 0 ∧ init.onces (init.agents 0).once = false ∧
    effectsSince init (stopTimes 0 3 init) = [.gracefulStop 0, .ctxCancel 0] :=
  ⟨by decide, by decide, by decide,
    (stopTimes_eq_single_Stop 3 0 init 0 (by decide) (by decide) (by decide)).1⟩

/-! ## Start -/

theorem Start_hostConfig_error (env : Env) (s : Ref) (w : World) (e : GoError)
    (h : env.newHostConfig = .error e) :
    Start env s w = (.returned (some (.wrap e "host config")), emit .newHostConfig w) := by
  simp [Start, h]

theorem Start_auth_error (env : Env) (s : Ref) (w : World) (hc : Ref) (e : GoError)
    (h1 : env.newHostConfig = .ok hc) (h2 : env.auth hc (w.agents s).ctx = some e) :
    Start env s w = (.returned (some (.wrap e "keystone auth")),
      emit (.auth hc (w.agents s).ctx) (emit .newHostConfig w)) := by
  simp [Start, h1, h2, emit]

theorem Start_listen_error (env : Env) (s : Ref) (w : World) (hc : Ref) (e : GoError)
    (h1 : env.newHostConfig = .ok hc) (h2 : env.auth hc (w.agents s).ctx = none)
    (h3 : env.listen "unix" env.unixSocketFile = .error e) :
    (Start env s w).1 = .exited ∧
    effectsSince w (Start env s w).2 =
      [.newHostConfig, .auth hc (w.agents s).ctx,
       .spawn (.hostConfigWatch hc (w.agents s).ctx s),
       .listen "unix" env.unixSocketFile, .fatal env.unixSocketFile e] := by
  simp [Start, h1, h2, h3, emit, spawn, effectsSince]

theorem Start_serving (env : Env) (s : Ref) (w : World) (hc lis rpc : Ref)
    (h1 : env.newHostConfig = .ok hc) (h2 : env.auth hc (w.agents s).ctx = none)
    (h3 : env.listen "unix" env.unixSocketFile = .ok lis)
    (h4 : (w.agents s).rpcServer = some rpc) :
    (Start env s w).1 = .returned (env.serve rpc lis) ∧
    effectsSince w (Start env s w).2 =
      [.newHostConfig, .auth hc (w.agents s).ctx,
       .spawn (.hostConfigWatch hc (w.agents s).ctx s),
       .listen "unix" env.unixSocketFile,
       .wgAdd (w.agents s).wg 2,
       .spawn (.serversWatcher (w.agents s).serversWatcher (w.agents s).ctx s),
       .spawn (.ifaceJanitor (w.agents s).ifaceJanitor (w.agents s).ctx),
       .serve rpc lis, .wgWait (w.agents s).wg, .lisClose lis] := by
  simp [Start, h1, h2, h3, h4, emit, spawn, wgAdd, effectsSince]

/-- C5, as the code has it: when resolving the host configuration fails with
`e`, `Start` returns `e` wrapped with "host config"; when it resolves and
authentication fails with `e`, `Start` returns `e` wrapped with "keystone
auth". In both cases the only effects are the calls that resolve and
authenticate: no listener is bound, no goroutine is started, no WaitGroup
changes and no agent field is written. -/
theorem Start_returns_wrapped_error (env : Env) (s : Ref) (w : World) :
    (∀ e, env.newHostConfig = .error e →
      (Start env s w).1 = .returned (some (.wrap e "host config")) ∧
      effectsSince w (Start env s w).2 = [.newHostConfig] ∧
      spawnedCount (effectsSince w (Start env s w).2) = 0 ∧
      (Start env s w).2.wgs = w.wgs ∧ (Start env s w).2.agents = w.agents) ∧
    (∀ hc e, env.newHostConfig = .ok hc → env.auth hc (w.agents s).ctx = some e →
      (Start env s w).1 = .returned (some (.wrap e "keystone auth")) ∧
      effectsSince w (Start env s w).2 = [.newHostConfig, .auth hc (w.agents s).ctx] ∧
      spawnedCount (effectsSince w (Start env s w).2) = 0 ∧
      (Start env s w).2.wgs = w.wgs ∧ (Start env s w).2.agents = w.agents) := by
  constructor
  · intro e h
    rw [Start_hostConfig_error env s w e h]
    simp [effectsSince, emit, spawnedCount, Event.isSpawn]
  · intro hc e h1 h2
    rw [Start_auth_error env s w hc e h1 h2]
    simp [effectsSince, emit, spawnedCount, Event.isSpawn, List.countP_cons]

/-- Witness for C5: a failing host configuration and a failing
authentication on the process-wide agent after `init`. -/
theorem Start_returns_wrapped_error_witness :
    (envNoHostConfig.newHostConfig = .error (.mk "no host config") ∧
      (Start envNoHostConfig 0 init).1
        = .returned (some (.wrap (.mk "no host config") "host config"))) ∧
    (envAuthFails.newHostConfig = .ok 0 ∧
      envAuthFails.auth 0 (init.agents 0).ctx = some (.mk "401") ∧
      (Start envAuthFails 0 init).1 = .returned (some (.wrap (.mk "401") "keystone auth"))) :=
  ⟨⟨rfl, ((Start_returns_wrapped_error envNoHostConfig 0 init).1 _ rfl).1⟩,
   ⟨rfl, rfl, ((Start_returns_wrapped_error envAuthFails 0 init).2 0 _ rfl rfl).1⟩⟩

/-- C5 as stated fails: when authentication fails with `e`, what `Start`
returns is not `e` wrapped with "auth". -/
theorem Start_auth_error_not_wrapped_with_auth :
    envAuthFails.newHostConfig = .ok 0 ∧
    envAuthFails.auth 0 (init.agents (Server init)).ctx = some (.mk "401") ∧
    (Start envAuthFails (Server init) init).1 ≠ .returned (some (.wrap (.mk "401") "auth")) := by
  refine ⟨rfl, rfl, ?_⟩
  rw [(Start_auth_error envAuthFails (Server init) init 0 (.mk "401") rfl rfl)]
  decide

/-- C6: when the host configuration resolves, authentication succeeds and
binding the listener fails, `Start` ends in a process exit and returns
neither an error nor nil; its effects stop at `log.Fatalf`, so the servers
watcher, the interface janitor and `Serve` are never started. -/
theorem Start_exits_when_listen_fails (env : Env) (s : Ref) (w : World) (hc : Ref)
    (e : GoError) (h1 : env.newHostConfig = .ok hc)
    (h2 : env.auth hc (w.agents s).ctx = none)
    (h3 : env.listen "unix" env.unixSocketFile = .error e) :
    (Start env s w).1 = .exited ∧
    (∀ err, (Start env s w).1 ≠ .returned err) ∧
    effectsSince w (Start env s w).2 =
      [.newHostConfig, .auth hc (w.agents s).ctx,
       .spawn (.hostConfigWatch hc (w.agents s).ctx s),
       .listen "unix" env.unixSocketFile, .fatal env.unixSocketFile e] ∧
    (∀ sw c a, Event.spawn (.serversWatcher sw c a) ∉ effectsSince w (Start env s w).2) ∧
    (∀ j c, Event.spawn (.ifaceJanitor j c) ∉ effectsSince w (Start env s w).2) ∧
    (∀ r l, Event.serve r l ∉ effectsSince w (Start env s w).2) := by
  obtain ⟨ho, he⟩ := Start_listen_error env s w hc e h1 h2 h3
  refine ⟨ho, ?_, he, ?_, ?_, ?_⟩
  · intro err; rw [ho]; exact fun h => Outcome.noConfusion h
  · intro sw c a; rw [he]; simp
  · intro j c; rw [he]; simp
  · intro r l; rw [he]; simp

/-- Witness for C6: a listener that cannot be bound, on the process-wide
agent after `init`. -/
theorem Start_exits_when_listen_fails_witness :
    envListenFails.newHostConfig = .ok 0 ∧
    envListenFails.auth 0 (init.agents 0).ctx = none ∧
    envListenFails.listen "unix" envListenFails.unixSocketFile
      = .error (.mk "address already in use") ∧
    (Start envListenFails 0 init).1 = .exited :=
  ⟨rfl, rfl, rfl, (Start_exits_when_listen_fails envListenFails 0 init 0 _ rfl rfl rfl).1⟩

/-- C7: when the host configuration resolves, authentication succeeds and
the listener is bound, `Start` on an agent with an RPC server returns the
value `Serve` returned, and its effects end with `Serve`, then the wait on
the agent's WaitGroup, then the close of the listener. -/
theorem Start_returns_Serve_result_after_wait (env : Env) (s : Ref) (w : World)
    (hc lis rpc : Ref) (h1 : env.newHostConfig = .ok hc)
    (h2 : env.auth hc (w.agents s).ctx = none)
    (h3 : env.listen "unix" env.unixSocketFile = .ok lis)
    (h4 : (w.agents s).rpcServer = some rpc) :
    (Start env s w).1 = .returned (env.serve rpc lis) ∧
    (∃ before, effectsSince w (Start env s w).2
      = before ++ [.serve rpc lis, .wgWait (w.agents s).wg, .lisClose lis] ∧
      Event.wgWait (w.agents s).wg ∉ before ∧ Event.serve rpc lis ∉ before) ∧
    (effectsSince w (Start env s w).2).count (.wgWait (w.agents s).wg) = 1 := by
  obtain ⟨ho, he⟩ := Start_serving env s w hc lis rpc h1 h2 h3 h4
  refine ⟨ho, ⟨[.newHostConfig, .auth hc (w.agents s).ctx,
       .spawn (.hostConfigWatch hc (w.agents s).ctx s),
       .listen "unix" env.unixSocketFile,
       .wgAdd (w.agents s).wg 2,
       .spawn (.serversWatcher (w.agents s).serversWatcher (w.agents s).ctx s),
       .spawn (.ifaceJanitor (w.agents s).ifaceJanitor (w.agents s).ctx)], ?_, ?_, ?_⟩, ?_⟩
  · rw [he]; rfl
  · simp
  · simp
  · rw [he]; simp [List.count_cons]

/-- Witness for C7: a run of `Start` on the process-wide agent after `init`
in which `Serve` returns nil. -/
theorem Start_returns_Serve_result_after_wait_witness :
    envServing.newHostConfig = .ok 0 ∧
    envServing.auth 0 (init.agents 0).ctx = none ∧
    envServing.listen "unix" envServing.unixSocketFile = .ok 0 ∧
    (init.agents 0).rpcServer = some 0 ∧
    (Start envServing 0 init).1 = .returned none :=
  ⟨rfl, rfl, rfl, rfl,
    (Start_returns_Serve_result_after_wait envServing 0 init 0 0 0 rfl rfl rfl rfl).1⟩

/-! ## Increments and goroutines -/

/-- C9 as stated fails: in the effects of a run of `Start` that reaches
`Serve`, the host configuration watcher is started when nothing has been
added to the WaitGroup yet. -/
theorem Start_spawns_hostConfigWatch_before_any_increment :
    envServing.newHostConfig = .ok 0 ∧
    envServing.auth 0 (init.agents (Server init)).ctx = none ∧
    envServing.listen "unix" envServing.unixSocketFile = .ok 0 ∧
    (Start envServing (Server init) init).1 = .returned none ∧
    spawnedCount ((effectsSince init (Start envServing (Server init) init).2).take 3) = 1 ∧
    addedTotal ((effectsSince init (Start envServing (Server init) init).2).take 3) = 0 ∧
    ¬ incrementsCoverSpawns (effectsSince init (Start envServing (Server init) init).2) := by
  obtain ⟨ho, he⟩ := Start_serving envServing (Server init) init 0 0 0 rfl rfl rfl rfl
  have h1 : spawnedCount ((effectsSince init (Start envServing (Server init) init).2).take 3)
      = 1 := by
    rw [he]; simp [spawnedCount, Event.isSpawn, List.countP_cons]
  have h2 : addedTotal ((effectsSince init (Start envServing (Server init) init).2).take 3)
      = 0 := by
    rw [he]; simp [addedTotal, Event.added]
  refine ⟨rfl, rfl, rfl, ho, h1, h2, ?_⟩
  intro h
  have h3 := h 3
  rw [h1, h2] at h3
  exact absurd h3 (by decide)

/-- C9, as the code has it: in the effects of a run of `Start` that reaches
`Serve`, and in the effects of `GetFlowMan` for a bridge the registry does
not hold, at every initial segment the number of goroutines started so far,
the host configuration watcher left out, is at most the total added to the
WaitGroup so far. -/
theorem increments_cover_tracked_spawns (env : Env) (s : Ref) (w : World)
    (hc lis rpc : Ref) (b : String) (h1 : env.newHostConfig = .ok hc)
    (h2 : env.auth hc (w.agents s).ctx = none)
    (h3 : env.listen "unix" env.unixSocketFile = .ok lis)
    (h4 : (w.agents s).rpcServer = some rpc)
    (h5 : mapGet (registry w) b = none) :
    incrementsCoverTrackedSpawns (effectsSince w (Start env s w).2) ∧
    incrementsCoverTrackedSpawns (effectsSince w (GetFlowMan s b w).2) := by
  obtain ⟨_, he⟩ := Start_serving env s w hc lis rpc h1 h2 h3 h4
  have hg := (GetFlowMan_miss s b w h5).2.2.2.2.2.2
  constructor
  · rw [he]
    intro n
    rcases n with _ | _ | _ | _ | _ | _ | _ | _ | _ | _ | n <;>
      simp [trackedSpawnedCount, addedTotal, Event.isTrackedSpawn, Event.added,
        List.countP_cons]
  · rw [effectsSince, hg, List.drop_left]
    intro n
    rcases n with _ | _ | _ | _ | _ | _ | _ | n <;>
      simp [trackedSpawnedCount, addedTotal, Event.isTrackedSpawn, Event.added,
        List.countP_cons]

/-- Witness for C9: `Start` reaching `Serve` and `GetFlowMan` for "br0" on
the process-wide agent after `init`. -/
theorem increments_cover_tracked_spawns_witness :
    envServing.newHostConfig = .ok 0 ∧
    envServing.auth 0 (init.agents 0).ctx = none ∧
    envServing.listen "unix" envServing.unixSocketFile = .ok 0 ∧
    (init.agents 0).rpcServer = some 0 ∧
    mapGet (registry init) "br0" = none ∧
    incrementsCoverTrackedSpawns (effectsSince init (Start envServing 0 init).2) ∧
    incrementsCoverTrackedSpawns (effectsSince init (GetFlowMan 0 "br0" init).2) :=
  ⟨rfl, rfl, rfl, rfl, by decide,
    increments_cover_tracked_spawns envServing 0 init 0 0 0 "br0" rfl rfl rfl rfl (by decide)⟩

/-! ## The lock held by GetFlowMan -/

/-- C8 on the code: the first `GetFlowMan` call for "br0" after `init`
checks and writes the map between `RLock` and `RUnlock`; the exclusive side
of the lock is never taken, so the insertion is not under it. -/
theorem GetFlowMan_inserts_under_shared_lock :
    mapGet (registry init) "br0" = none ∧
    effectsSince init (GetFlowMan (Server init) "br0" init).2 =
      [.rlock 0, .mapRead 0 "br0" false, .newFlowMan "br0" 0, .mapWrite 0 "br0" 0,
       .wgAdd 0 1, .spawn (.flowMan 0 { scope := 0, wgValue := some 0 }), .runlock 0] ∧
    (∀ l, Event.lock l ∉ effectsSince init (GetFlowMan (Server init) "br0" init).2) ∧
    insertsUnderExclusiveLock 0 0 false
      (effectsSince init (GetFlowMan (Server init) "br0" init).2) = false := by
  have he : effectsSince init (GetFlowMan (Server init) "br0" init).2 =
      [.rlock 0, .mapRead 0 "br0" false, .newFlowMan "br0" 0, .mapWrite 0 "br0" 0,
       .wgAdd 0 1, .spawn (.flowMan 0 { scope := 0, wgValue := some 0 }), .runlock 0] := by
    decide
  refine ⟨by decide, he, ?_, ?_⟩
  · intro l; rw [he]; simp
  · rw [he]; decide

/-! ## Concurrent callers -/

/-- A caller running alone from the entry of `GetFlowMan` for seven steps
has returned, with the result and the state of the method `GetFlowMan`. -/
theorem runSchedule_single_caller (s : Ref) (b : String) (w : World) :
    runSchedule (List.replicate 7 0) ([{ s := s, bridge := b, pc := .rlock }], w)
      = ([{ s := s, bridge := b, pc := .done (GetFlowMan s b w).1 }], (GetFlowMan s b w).2) := by
  cases h : mapGet (w.maps (w.agents w.theAgentServer).flowMans) b <;>
    simp [runSchedule, Thread.step, GetFlowMan, mapLookup, RLock, RUnlock, NewFlowMan,
      mapStore, wgAdd, spawn, emit, h, List.replicate]

/-- C3 on the code: two callers for the same bridge, scheduled so that both
take the shared lock and miss before either inserts, both return, with
different workers (0 and 1), and two flow workers are started; the registry
keeps only the second. -/
theorem concurrent_GetFlowMan_creates_two_workers :
    (runSchedule racingSchedule (racingCallers, init)).1.map Thread.result
      = [some 0, some 1] ∧
    workersLaunched (runSchedule racingSchedule (racingCallers, init)).2.trace = 2 ∧
    (runSchedule racingSchedule (racingCallers, init)).2.flowManObjs = ["br0", "br0"] ∧
    registry (runSchedule racingSchedule (racingCallers, init)).2 = [("br0", 1)] ∧
    (runSchedule racingSchedule (racingCallers, init)).2.wgs 0 = 2 := by
  refine ⟨by decide, by decide, by decide, by decide, by decide⟩

/-! ## A receiver other than the process-wide agent -/

end Sdnagent
